import Mathlib

/-!
Shallow embedding of the expense tracker's data-access core
(`db_operations.py`, plus the receipt-upload flow of `dropbox_upload.py`
and `ui_components.py`) and proofs about it.

The relational store behind the Supabase client is modelled as explicit
lists of rows; every operation is a pure function on that state.  Machine
details of external collaborators are modelled by their documented
behaviour: PostgREST's `.single()` succeeds exactly on a one-row result,
text columns order lexicographically by character, and Python string
truthiness treats `None` and `""` as falsy.
-/

set_option maxHeartbeats 1000000

namespace ExpenseTracker

/-- Calendar date as stored in the `expenses.date` column (ISO `YYYY-MM-DD`). -/
structure Date where
  year : Nat
  month : Nat
  day : Nat
deriving DecidableEq, Repr

/-- The schema's validity invariant for stored dates (`date` is a valid calendar
date in sortable ISO form; `datetime.date` years are at most 9999). -/
def ValidDate (d : Date) : Prop :=
  1 ≤ d.month ∧ d.month ≤ 12 ∧ 1 ≤ d.day ∧ d.day ≤ 31 ∧ d.year ≤ 9999

instance (d : Date) : Decidable (ValidDate d) := by unfold ValidDate; infer_instance

/-- Decimal digit character, clamped; always applied to values below ten. -/
def digitChar : Nat → Char
  | 0 => '0' | 1 => '1' | 2 => '2' | 3 => '3' | 4 => '4'
  | 5 => '5' | 6 => '6' | 7 => '7' | 8 => '8' | _ => '9'

/-- Two-digit zero-padded rendering (`%02d`). -/
def pad2chars (n : Nat) : List Char := [digitChar (n / 10 % 10), digitChar (n % 10)]

/-- Four-digit zero-padded rendering (`%04d`). -/
def pad4chars (n : Nat) : List Char :=
  [digitChar (n / 1000 % 10), digitChar (n / 100 % 10), digitChar (n / 10 % 10),
    digitChar (n % 10)]

/-- Characters of the `YYYY-MM` month key (`strftime("%Y-%m")`). -/
def ymChars (d : Date) : List Char := pad4chars d.year ++ '-' :: pad2chars d.month

/-- `strftime("%Y-%m")` of a stored date: the group key used by `get_month_totals`. -/
def ymOf (d : Date) : String := ⟨ymChars d⟩

/-- Characters of `date.isoformat()` (`YYYY-MM-DD`). -/
def isoChars (d : Date) : List Char := ymChars d ++ '-' :: pad2chars d.day

/-- `date.isoformat()`: the stored text form of a date. -/
def isoDate (d : Date) : String := ⟨isoChars d⟩

/-- C-locale month abbreviations used by `strftime("%b")`. -/
def monthAbbr : Nat → List Char
  | 1 => ['J', 'a', 'n'] | 2 => ['F', 'e', 'b'] | 3 => ['M', 'a', 'r']
  | 4 => ['A', 'p', 'r'] | 5 => ['M', 'a', 'y'] | 6 => ['J', 'u', 'n']
  | 7 => ['J', 'u', 'l'] | 8 => ['A', 'u', 'g'] | 9 => ['S', 'e', 'p']
  | 10 => ['O', 'c', 't'] | 11 => ['N', 'o', 'v'] | 12 => ['D', 'e', 'c']
  | _ => []

/-- `strftime("%b-%y")`: month abbreviation, dash, two-digit year. -/
def to_display (y m : Nat) : String := ⟨monthAbbr m ++ '-' :: pad2chars (y % 100)⟩

/-- Decimal-digit test of `strptime`'s field regexes. -/
def isDig (c : Char) : Bool := decide (48 ≤ c.toNat) && decide (c.toNat ≤ 57)

/-- Numeric value of a digit character. -/
def charDigit (c : Char) : Nat := c.toNat - 48

/-- Century pivot of `strptime`'s `%y`: 00-68 map to the 2000s, 69-99 to the 1900s. -/
def pivotYear (v : Nat) : Nat := if v ≤ 68 then 2000 + v else 1900 + v

/-- The lower-cased abbreviation table behind `strptime`'s case-insensitive `%b`. -/
def monthTable : List (Char × Char × Char × Nat) :=
  [('j', 'a', 'n', 1),
   ('f', 'e', 'b', 2),
   ('m', 'a', 'r', 3),
   ('a', 'p', 'r', 4),
   ('m', 'a', 'y', 5),
   ('j', 'u', 'n', 6),
   ('j', 'u', 'l', 7),
   ('a', 'u', 'g', 8),
   ('s', 'e', 'p', 9),
   ('o', 'c', 't', 10),
   ('n', 'o', 'v', 11),
   ('d', 'e', 'c', 12)]

def monthNum (c₁ c₂ c₃ : Char) : Option Nat :=
  (monthTable.find? (fun t =>
    t.1 == c₁.toLower && t.2.1 == c₂.toLower && t.2.2.1 == c₃.toLower)).map
    (fun t => t.2.2.2)

/-- `datetime.strptime(month, "%b-%y")`, returning `(year, month)`: three letters, a
dash, two digits, matching the whole string; `none` models the raised `ValueError`. -/
def parseLabel (s : String) : Option (Nat × Nat) :=
  match s.data with
  | [c₁, c₂, c₃, dash, d₁, d₂] =>
    if dash = '-' && isDig d₁ && isDig d₂ then
      match monthNum c₁ c₂ c₃ with
      | some m => some (pivotYear (10 * charDigit d₁ + charDigit d₂), m)
      | none => none
    else none
  | _ => none

/-- `datetime.strptime(x, "%Y-%m")`, returning `(year, month)`, in the two-digit-month
form that `get_month_totals` generates; the month must be in range. -/
def parseYM (s : String) : Option (Nat × Nat) :=
  match s.data with
  | [a, b, c, d, dash, e, f] =>
    if dash = '-' && isDig a && isDig b && isDig c && isDig d && isDig e && isDig f then
      let m := 10 * charDigit e + charDigit f
      if 1 ≤ m ∧ m ≤ 12 then
        some (1000 * charDigit a + 100 * charDigit b + 10 * charDigit c + charDigit d, m)
      else none
    else none
  | _ => none

/-- `strptime(x, "%Y-%m").strftime("%b-%y")` as applied to a generated month key. -/
def labelOf (k : String) : String :=
  match parseYM k with
  | some (y, m) => to_display y m
  | none => ""

/-- Lexicographic text comparison (strict), as text columns and Python strings compare. -/
def lexLt : List Char → List Char → Bool
  | [], [] => false
  | [], _ :: _ => true
  | _ :: _, [] => false
  | a :: as, b :: bs => decide (a < b) || (a == b && lexLt as bs)

/-- Strict text order on strings. -/
def strLt (s t : String) : Bool := lexLt s.data t.data

/-- Reflexive text order on strings. -/
def strLe (s t : String) : Bool := !(strLt t s)

/-- Python `str.upper()` (character-wise upper-casing). -/
def upper (s : String) : String := ⟨s.data.map Char.toUpper⟩

/-- Row of the `categories` table. -/
structure Category where
  id : Nat
  name : String
deriving DecidableEq, Repr

/-- Row of the `expenses` table (the surrogate id plays no role here). -/
structure Expense where
  amount : Int
  category_id : Nat
  date : Date
  receipt_url : Option String
deriving DecidableEq, Repr

/-- Row of the `users` table (`password` holds the stored hash). -/
structure UserRow where
  username : String
  password : String
deriving DecidableEq, Repr

/-- The relational store behind the Supabase client. -/
structure Store where
  categories : List Category
  expenses : List Expense
  users : List UserRow
  nextId : Nat
deriving DecidableEq, Repr

/-- PostgREST `.single()`: yields the row exactly when the result set has exactly one
row; otherwise the call raises `APIError`, modelled as `none`. -/
def single {α : Type} : List α → Option α
  | [x] => some x
  | _ => none

instance {ε α : Type} [DecidableEq ε] [DecidableEq α] : DecidableEq (Except ε α)
  | .error e₁, .error e₂ =>
    if h : e₁ = e₂ then .isTrue (by rw [h]) else .isFalse (by intro hh; cases hh; exact h rfl)
  | .error _, .ok _ => .isFalse (by intro hh; cases hh)
  | .ok _, .error _ => .isFalse (by intro hh; cases hh)
  | .ok a₁, .ok a₂ =>
    if h : a₁ = a₂ then .isTrue (by rw [h]) else .isFalse (by intro hh; cases hh; exact h rfl)

/-- A Supabase client handle (just the resolved credentials). -/
structure Conn where
  url : String
  key : String
deriving DecidableEq, Repr

/-- Python truthiness test for an optional string: `None` and `""` are falsy. -/
def falsyB : Option String → Bool
  | none => true
  | some s => s == ""

/-- Python `a or b` on optional strings: `b` when `a` is falsy. -/
def pyOr (a b : Option String) : Option String :=
  match a with
  | some s => if s == "" then b else some s
  | none => b

/-- `get_connection`: each credential falls back from the call argument to
`st.secrets` to the environment; a falsy resolution of either raises
`ValueError("Supabase credentials not provided")`. -/
def get_connection (url secretsUrl envUrl key secretsKey envKey : Option String) :
    Except Unit Conn :=
  if falsyB (pyOr (pyOr url secretsUrl) envUrl) ||
      falsyB (pyOr (pyOr key secretsKey) envKey) then .error ()
  else .ok ⟨(pyOr (pyOr url secretsUrl) envUrl).getD "",
    (pyOr (pyOr key secretsKey) envKey).getD ""⟩

/-- `add_category`: upper-cases the name and inserts; any insert failure (notably the
`name` uniqueness violation) is swallowed and reported as `false`. -/
def add_category (s : Store) (name : String) : Bool × Store :=
  let name := upper name
  if s.categories.any (fun c => c.name == name) then (false, s)
  else
    (true,
      { s with
        categories := s.categories ++ [⟨s.nextId, name⟩]
        nextId := s.nextId + 1 })

/-- Order relation used by `.order("name")` on a text column. -/
def strLeRel (a b : String) : Prop := strLe a b = true

instance : DecidableRel strLeRel := fun a b => instDecidableEqBool _ _

/-- `get_categories`: all category names, ordered ascending. -/
def get_categories (s : Store) : List String :=
  List.insertionSort strLeRel (s.categories.map (·.name))

/-- `add_expense`: resolves the category id by upper-cased name with `.single()`; when
resolution fails the raised error aborts before the insert, so the second component
(the store) is returned unchanged.  On success the expense row is appended. -/
def add_expense (s : Store) (amount : Int) (category : String) (expense_date : Date)
    (receipt_url : Option String) : Except Unit Unit × Store :=
  match single (s.categories.filter (fun c => c.name == upper category)) with
  | none => (.error (), s)
  | some c =>
      (.ok (),
        { s with expenses := s.expenses ++ [⟨amount, c.id, expense_date, receipt_url⟩] })

/-- Numeric key whose order is calendar order of dates (declared early for the
timestamp-bounds check below; the order bridge lemmas about it come later). -/
def dateKey (d : Date) : Nat := d.year * 10000 + d.month * 100 + d.day

/-- Whether a date-only value fits in a pandas nanosecond timestamp:
`Timestamp.min` is 1677-09-21 00:12 (so the first storable midnight is 1677-09-22)
and `Timestamp.max` is 2262-04-11 23:47. -/
def inStampBounds (d : Date) : Bool :=
  decide (16770922 ≤ dateKey d) && decide (dateKey d ≤ 22620411)

/-- Days in a calendar month, with the Gregorian leap rule. -/
def daysInMonth (y m : Nat) : Nat :=
  if m = 2 then (if (y % 4 = 0 ∧ y % 100 ≠ 0) ∨ y % 400 = 0 then 29 else 28)
  else if m = 4 ∨ m = 6 ∨ m = 9 ∨ m = 11 then 30 else 31

/-- Whether `pd.to_datetime` converts the stored ISO text of `d`: it must be a real
calendar date (else `ValueError`) inside the nanosecond-timestamp range (else
`OutOfBoundsDatetime`). -/
def pdDate (d : Date) : Bool :=
  decide (1 ≤ d.month) && decide (d.month ≤ 12) && decide (1 ≤ d.day) &&
    decide (d.day ≤ daysInMonth d.year d.month) && inStampBounds d

/-- `get_month_totals`: an empty ledger short-circuits to an empty frame; otherwise
`pd.to_datetime(df["date"])` converts every stored date — raising (`.error`) if any
is unconvertible — then the expenses are grouped by their `YYYY-MM` key, each
group's amounts are summed, each key is labelled via `%b-%y`, and the rows are
ordered ascending by the key. -/
def get_month_totals (s : Store) : Except Unit (List (String × Int)) :=
  if s.expenses.all (fun e => pdDate e.date) then
    .ok ((List.insertionSort strLeRel
        ((s.expenses.map (fun e => ymOf e.date)).dedup)).map (fun k =>
      (labelOf k, ((s.expenses.filter (fun e => ymOf e.date == k)).map (·.amount)).sum)))
  else .error ()

/-- A joined result row of `get_expenses_by_month` (`date, amount, categories(name)`). -/
structure Detail where
  date : String
  category : Option String
  amount : Int
deriving DecidableEq, Repr

/-- The joined view of an expense row: its stored date text, the name of its category
row (present whenever the foreign key resolves, which the schema guarantees), and the
amount. -/
def detailOf (s : Store) (e : Expense) : Detail :=
  ⟨isoDate e.date, (s.categories.find? (fun c => c.id == e.category_id)).map (·.name),
    e.amount⟩

/-- First day of the following month: `start + pd.offsets.MonthBegin(1)` rolls a
timestamp already on a month's first day forward to the next month's first day. -/
def firstOfNextMonth (y m : Nat) : Nat × Nat := if m = 12 then (y + 1, 1) else (y, m + 1)

/-- Order relation used by `.order("date")` on the stored date column. -/
def expLeRel (a b : Expense) : Prop := strLe (isoDate a.date) (isoDate b.date) = true

instance : DecidableRel expLeRel := fun a b => instDecidableEqBool _ _

/-- `get_expenses_by_month`: an empty selection short-circuits to an empty frame;
otherwise the `%b-%y` label is parsed (`strptime` raising on failure), and the rows
with `start.isoformat() <= date < end.isoformat()` are returned joined with their
category name and ordered ascending by date. -/
def get_expenses_by_month (s : Store) (month : String) : Except Unit (List Detail) :=
  if month = "" then .ok []
  else
    match parseLabel month with
    | none => .error ()
    | some (y, m) =>
      .ok ((List.insertionSort expLeRel (s.expenses.filter (fun e =>
          strLe (isoDate ⟨y, m, 1⟩) (isoDate e.date) &&
          strLt (isoDate e.date)
            (isoDate ⟨(firstOfNextMonth y m).1, (firstOfNextMonth y m).2, 1⟩)))).map
        (detailOf s))

/-! ### SHA-256 (the behaviour of `hashlib.sha256(...).hexdigest()`) -/

/-- Right rotation of a 32-bit word. -/
def rotr32 (x n : Nat) : Nat := ((x >>> n) ||| (x <<< (32 - n))) % 4294967296

def bigSigma0 (x : Nat) : Nat := rotr32 x 2 ^^^ rotr32 x 13 ^^^ rotr32 x 22

def bigSigma1 (x : Nat) : Nat := rotr32 x 6 ^^^ rotr32 x 11 ^^^ rotr32 x 25

def smallSigma0 (x : Nat) : Nat := rotr32 x 7 ^^^ rotr32 x 18 ^^^ (x >>> 3)

def smallSigma1 (x : Nat) : Nat := rotr32 x 17 ^^^ rotr32 x 19 ^^^ (x >>> 10)

def chFn (x y z : Nat) : Nat := (x &&& y) ^^^ ((x ^^^ 4294967295) &&& z)

def majFn (x y z : Nat) : Nat := (x &&& y) ^^^ (x &&& z) ^^^ (y &&& z)

/-- The SHA-256 round constants. -/
def roundK : List Nat :=
  [1116352408, 1899447441, 3049323471, 3921009573, 961987163,
   1508970993, 2453635748, 2870763221, 3624381080, 310598401,
   607225278, 1426881987, 1925078388, 2162078206, 2614888103,
   3248222580, 3835390401, 4022224774, 264347078, 604807628,
   770255983, 1249150122, 1555081692, 1996064986, 2554220882,
   2821834349, 2952996808, 3210313671, 3336571891, 3584528711,
   113926993, 338241895, 666307205, 773529912, 1294757372,
   1396182291, 1695183700, 1986661051, 2177026350, 2456956037,
   2730485921, 2820302411, 3259730800, 3345764771, 3516065817,
   3600352804, 4094571909, 275423344, 430227734, 506948616,
   659060556, 883997877, 958139571, 1322822218, 1537002063,
   1747873779, 1955562222, 2024104815, 2227730452, 2361852424,
   2428436474, 2756734187, 3204031479, 3329325298]

/-- The SHA-256 initial hash state. -/
def initH : List Nat :=
  [1779033703, 3144134277, 1013904242, 2773480762,
   1359893119, 2600822924, 528734635, 1541459225]

/-- UTF-8 encoding of one character (Python `str.encode()`). -/
def utf8Bytes (c : Char) : List Nat :=
  let n := c.toNat
  if n < 128 then [n]
  else if n < 2048 then [192 ||| (n >>> 6), 128 ||| (n &&& 63)]
  else if n < 65536 then
    [224 ||| (n >>> 12), 128 ||| ((n >>> 6) &&& 63), 128 ||| (n &&& 63)]
  else
    [240 ||| (n >>> 18), 128 ||| ((n >>> 12) &&& 63), 128 ||| ((n >>> 6) &&& 63),
      128 ||| (n &&& 63)]

/-- UTF-8 bytes of a string. -/
def strBytes (s : String) : List Nat := (s.data.map utf8Bytes).flatten

/-- Big-endian byte rendering of `n` in `k` bytes. -/
def toBytesBE (k n : Nat) : List Nat :=
  (List.range k).map (fun i => n >>> (8 * (k - 1 - i)) &&& 255)

/-- SHA-256 message padding: a `0x80` byte, zeros, then the 64-bit message bit length. -/
def padMessage (msg : List Nat) : List Nat :=
  let len := msg.length
  let zeros := (64 - (len + 9) % 64) % 64
  msg ++ 128 :: (List.replicate zeros 0 ++ toBytesBE 8 (8 * len))

/-- Big-endian 32-bit words from a byte stream. -/
def toWords : List Nat → List Nat
  | a :: b :: c :: d :: rest => (((a * 256 + b) * 256 + c) * 256 + d) :: toWords rest
  | _ => []

/-- Split the word stream into 16-word blocks (the padded length is a multiple of 16). -/
def chunk16 : List Nat → List (List Nat)
  | x₁ :: x₂ :: x₃ :: x₄ :: x₅ :: x₆ :: x₇ :: x₈ :: x₉ :: x₁₀ :: x₁₁ :: x₁₂ :: x₁₃ ::
      x₁₄ :: x₁₅ :: x₁₆ :: rest =>
    [x₁, x₂, x₃, x₄, x₅, x₆, x₇, x₈, x₉, x₁₀, x₁₁, x₁₂, x₁₃, x₁₄, x₁₅, x₁₆] ::
      chunk16 rest
  | _ => []

/-- Extend a 16-word block to the 64-word message schedule. -/
def extendSchedule (w : List Nat) : List Nat :=
  (List.range 48).foldl
    (fun w _ =>
      let n := w.length
      w ++ [(smallSigma1 (w.getD (n - 2) 0) + w.getD (n - 7) 0 +
        smallSigma0 (w.getD (n - 15) 0) + w.getD (n - 16) 0) % 4294967296])
    w

/-- One SHA-256 compression step over a 16-word block. -/
def compress (h : List Nat) (block : List Nat) : List Nat :=
  let w := extendSchedule block
  let st := (List.range 64).foldl
    (fun st i =>
      match st with
      | [a, b, c, d, e, f, g, hh] =>
        let t1 := (hh + bigSigma1 e + chFn e f g + roundK.getD i 0 + w.getD i 0) % 4294967296
        let t2 := (bigSigma0 a + majFn a b c) % 4294967296
        [(t1 + t2) % 4294967296, a, b, c, (d + t1) % 4294967296, e, f, g]
      | st => st)
    h
  (h.zip st).map (fun p => (p.1 + p.2) % 4294967296)

/-- Lower-case hexadecimal digit. -/
def hexChar : Nat → Char
  | 0 => '0' | 1 => '1' | 2 => '2' | 3 => '3' | 4 => '4' | 5 => '5' | 6 => '6'
  | 7 => '7' | 8 => '8' | 9 => '9' | 10 => 'a' | 11 => 'b' | 12 => 'c' | 13 => 'd'
  | 14 => 'e' | _ => 'f'

/-- Eight hex digits of a 32-bit word. -/
def toHex8 (n : Nat) : List Char :=
  (List.range 8).map (fun i => hexChar (n >>> (4 * (7 - i)) &&& 15))

/-- `hashlib.sha256(s.encode()).hexdigest()`. -/
def sha256hex (s : String) : String :=
  let blocks := chunk16 (toWords (padMessage (strBytes s)))
  ⟨((blocks.foldl compress initH).map toHex8).flatten⟩

/-- `validate_user`: queries `users` for the username paired with `password_hash`, the
SHA-256 hex digest of the password, using `.single()`; a found row is truthy, and any
raised error is caught and becomes `False`. -/
def validate_user (s : Store) (username password : String) : Bool :=
  match single (s.users.filter
      (fun u => u.username == username && u.password == sha256hex password)) with
  | some _ => true
  | none => false

/-! ### Receipt upload (`dropbox_upload.upload_file`) and the expense-save flow -/

/-- Outcome of one Dropbox SDK call: success, an `AuthError`, an `ApiError`, or one
of the error classes the source never catches — `RateLimitError`,
`InternalServerError` (both `HttpError` subclasses, not `ApiError`) and
requests-level connection errors, collapsed as `httpError`. -/
inductive CallOutcome where
  | ok
  | authError
  | apiError
  | httpError
deriving DecidableEq, Repr

/-- The state of the Dropbox collaborator as `upload_file` can observe it: the
configured credentials, the outcomes of the client/API calls, and the link the
shared-link block produces when it completes (possibly `None`). -/
structure DropboxEnv where
  refresh_token : Option String
  app_key : Option String
  app_secret : Option String
  api_token : Option String
  ctorAuthOk : Bool
  uploadOutcome : CallOutcome
  linkOutcome : CallOutcome
  link : Option String
deriving DecidableEq, Repr

/-- Python truthiness of an optional string. -/
def truthy (o : Option String) : Bool := !(falsyB o)

/-- `_get_client`: prefer the refresh-token flow (whose constructor may raise
`AuthError`, caught and turned into `None`), fall back to a static token, else `None`. -/
def get_client (env : DropboxEnv) : Option Unit :=
  if truthy env.refresh_token && truthy env.app_key && truthy env.app_secret then
    if env.ctorAuthOk then some () else none
  else if truthy env.api_token then some ()
  else none

/-- `upload_file`: the outer try around `files_upload` and the shared-link block
catches only `dropbox.exceptions.AuthError` and `dropbox.exceptions.ApiError`,
returning `None` (`.ok none`), as does a missing-credentials client; any other
exception — `RateLimitError`, `InternalServerError`, a connection error — is not
caught and propagates (`.error`).  The shared-link block's own `ApiError` handler
keeps the flow alive with the already-existing link or `None` (`env.link`). -/
def upload_file (env : DropboxEnv) : Except Unit (Option String) :=
  match get_client env with
  | none => .ok none
  | some _ =>
    match env.uploadOutcome with
    | .httpError => .error ()
    | .authError => .ok none
    | .apiError => .ok none
    | .ok =>
      match env.linkOutcome with
      | .httpError => .error ()
      | .authError => .ok none
      | .apiError => .ok env.link
      | .ok => .ok env.link

/-- The submitted-expense branch of `ui_components.add_expense_form`: when a receipt
is attached, `upload_file` runs with no surrounding `try`, so an uncaught upload
exception aborts the flow before `add_expense`; otherwise whatever reference came
back — including `None` on a handled failure — is passed to `add_expense`. -/
def save_expense_flow (s : Store) (env : DropboxEnv) (amount : Int) (category : String)
    (d : Date) (hasReceipt : Bool) : Except Unit Unit × Store :=
  if hasReceipt then
    match upload_file env with
    | .error _ => (.error (), s)
    | .ok receipt_url => add_expense s amount category d receipt_url
  else add_expense s amount category d none

/-! ### Concrete stores used by witnesses and counterexamples -/

/-- A store with no rows. -/
def emptyStore : Store := ⟨[], [], [], 1⟩

/-- The spec's aggregate example: 10 on 2024-01-05, 5 on 2024-01-20, 7 on 2024-02-01. -/
def exampleStore : Store :=
  ⟨[⟨1, "FOOD"⟩],
   [⟨10, 1, ⟨2024, 1, 5⟩, none⟩, ⟨5, 1, ⟨2024, 1, 20⟩, none⟩, ⟨7, 1, ⟨2024, 2, 1⟩, none⟩],
   [], 2⟩

/-- The spec's boundary example: one expense on 2024-01-31 and one on 2024-02-01. -/
def boundaryStore : Store :=
  ⟨[⟨1, "FOOD"⟩], [⟨3, 1, ⟨2024, 1, 31⟩, none⟩, ⟨7, 1, ⟨2024, 2, 1⟩, none⟩], [], 2⟩

/-- Two identical credential rows (the `users` schema does not forbid them). -/
def dupUserStore : Store :=
  ⟨[], [], [⟨"u", sha256hex "p"⟩, ⟨"u", sha256hex "p"⟩], 1⟩

/-- One expense on the valid calendar date 2300-01-05, which lies outside the pandas
nanosecond-timestamp range. -/
def outOfRangeStore : Store :=
  ⟨[⟨1, "FOOD"⟩], [⟨10, 1, ⟨2300, 1, 5⟩, none⟩], [], 2⟩

/-- A Dropbox environment with no credentials configured at all. -/
def noCredsEnv : DropboxEnv := ⟨none, none, none, none, true, .ok, .ok, none⟩

/-- A configured environment whose `files_upload` call fails with an error class the
source does not catch (e.g. `RateLimitError`). -/
def rateLimitEnv : DropboxEnv :=
  ⟨none, none, none, some "token", true, .httpError, .ok, none⟩

/-! ### Order bridge: text comparison of the rendered forms vs. numeric key order -/

/-- Numeric key whose order is calendar order of months. -/
def ymKey (d : Date) : Nat := d.year * 100 + d.month

theorem lex_cons_cons {α : Type} [LinearOrder α] {a b : α} {l₁ l₂ : List α} :
    List.Lex (· < ·) (a :: l₁) (b :: l₂) ↔ a < b ∨ (a = b ∧ List.Lex (· < ·) l₁ l₂) := by
  constructor
  · intro h
    cases h with
    | cons h => exact Or.inr ⟨rfl, h⟩
    | rel h => exact Or.inl h
  · rintro (h | ⟨rfl, h⟩)
    · exact List.Lex.rel h
    · exact List.Lex.cons h

theorem lexLt_iff : ∀ l₁ l₂ : List Char, lexLt l₁ l₂ = true ↔ List.Lex (· < ·) l₁ l₂
  | [], [] => by simp [lexLt]
  | [], _ :: _ => by simpa [lexLt] using List.Lex.nil
  | _ :: _, [] => by simp [lexLt]
  | a :: as, b :: bs => by
    simp [lexLt, lexLt_iff as bs, lex_cons_cons, Bool.or_eq_true, Bool.and_eq_true,
      decide_eq_true_eq, beq_iff_eq]

theorem strLt_iff {s t : String} : strLt s t = true ↔ s < t := by
  rw [String.lt_iff_toList_lt]
  exact lexLt_iff s.data t.data

theorem strLe_iff {s t : String} : strLe s t = true ↔ s ≤ t := by
  have h : strLe s t = true ↔ ¬strLt t s = true := by simp [strLe]
  rw [h, strLt_iff, not_lt]

instance : IsTotal String strLeRel :=
  ⟨fun a b => by
    rcases le_total a b with h | h
    · exact Or.inl (strLe_iff.mpr h)
    · exact Or.inr (strLe_iff.mpr h)⟩

instance : IsTrans String strLeRel :=
  ⟨fun _ _ _ hab hbc => strLe_iff.mpr (le_trans (strLe_iff.mp hab) (strLe_iff.mp hbc))⟩

instance : IsTotal Expense expLeRel :=
  ⟨fun a b => by
    rcases le_total (isoDate a.date) (isoDate b.date) with h | h
    · exact Or.inl (strLe_iff.mpr h)
    · exact Or.inr (strLe_iff.mpr h)⟩

instance : IsTrans Expense expLeRel :=
  ⟨fun _ _ _ hab hbc => strLe_iff.mpr (le_trans (strLe_iff.mp hab) (strLe_iff.mp hbc))⟩

theorem digitChar_lt_iff (a b : Nat) :
    (digitChar (a % 10) < digitChar (b % 10)) ↔ a % 10 < b % 10 := by
  have h : ∀ x, x < 10 → ∀ y, y < 10 → ((digitChar x < digitChar y) ↔ x < y) := by decide
  exact h _ (Nat.mod_lt _ (by decide)) _ (Nat.mod_lt _ (by decide))

theorem digitChar_eq_iff (a b : Nat) :
    (digitChar (a % 10) = digitChar (b % 10)) ↔ a % 10 = b % 10 := by
  have h : ∀ x, x < 10 → ∀ y, y < 10 → ((digitChar x = digitChar y) ↔ x = y) := by decide
  exact h _ (Nat.mod_lt _ (by decide)) _ (Nat.mod_lt _ (by decide))

theorem isDig_digitChar (n : Nat) : isDig (digitChar n) = true := by
  unfold digitChar
  split <;> decide

theorem charDigit_digitChar (n : Nat) : charDigit (digitChar (n % 10)) = n % 10 := by
  have h : ∀ x, x < 10 → charDigit (digitChar x) = x := by decide
  exact h _ (Nat.mod_lt _ (by decide))

theorem isoChars_lex_iff {a b : Date} (ha : ValidDate a) (hb : ValidDate b) :
    List.Lex (· < ·) (isoChars a) (isoChars b) ↔ dateKey a < dateKey b := by
  obtain ⟨_, ham, _, had, hay⟩ := ha
  obtain ⟨_, hbm, _, hbd, hby⟩ := hb
  simp only [isoChars, ymChars, pad4chars, pad2chars, List.cons_append, List.nil_append,
    lex_cons_cons, List.Lex.not_nil_right, lt_self_iff_false, digitChar_lt_iff,
    digitChar_eq_iff, and_false, or_false, false_or, true_and]
  unfold dateKey
  generalize h1 : a.year / 1000 % 10 = a3
  generalize h2 : a.year / 100 % 10 = a2
  generalize h3 : a.year / 10 % 10 = a1
  generalize h4 : a.year % 10 = a0
  generalize h5 : a.month / 10 % 10 = am1
  generalize h6 : a.month % 10 = am0
  generalize h7 : a.day / 10 % 10 = ad1
  generalize h8 : a.day % 10 = ad0
  generalize h9 : b.year / 1000 % 10 = b3
  generalize h10 : b.year / 100 % 10 = b2
  generalize h11 : b.year / 10 % 10 = b1
  generalize h12 : b.year % 10 = b0
  generalize h13 : b.month / 10 % 10 = bm1
  generalize h14 : b.month % 10 = bm0
  generalize h15 : b.day / 10 % 10 = bd1
  generalize h16 : b.day % 10 = bd0
  have f1 : a.year = 1000 * a3 + 100 * a2 + 10 * a1 + a0 ∧ a3 ≤ 9 ∧ a2 ≤ 9 ∧ a1 ≤ 9 ∧
      a0 ≤ 9 := by omega
  have f2 : a.month = 10 * am1 + am0 ∧ am1 ≤ 9 ∧ am0 ≤ 9 := by omega
  have f3 : a.day = 10 * ad1 + ad0 ∧ ad1 ≤ 9 ∧ ad0 ≤ 9 := by omega
  have f4 : b.year = 1000 * b3 + 100 * b2 + 10 * b1 + b0 ∧ b3 ≤ 9 ∧ b2 ≤ 9 ∧ b1 ≤ 9 ∧
      b0 ≤ 9 := by omega
  have f5 : b.month = 10 * bm1 + bm0 ∧ bm1 ≤ 9 ∧ bm0 ≤ 9 := by omega
  have f6 : b.day = 10 * bd1 + bd0 ∧ bd1 ≤ 9 ∧ bd0 ≤ 9 := by omega
  clear h1 h2 h3 h4 h5 h6 h7 h8 h9 h10 h11 h12 h13 h14 h15 h16
  omega

theorem ymChars_lex_iff {a b : Date} (ha : a.year ≤ 9999) (ham : a.month ≤ 99)
    (hb : b.year ≤ 9999) (hbm : b.month ≤ 99) :
    List.Lex (· < ·) (ymChars a) (ymChars b) ↔ ymKey a < ymKey b := by
  simp only [ymChars, pad4chars, pad2chars, List.cons_append, List.nil_append,
    lex_cons_cons, List.Lex.not_nil_right, lt_self_iff_false, digitChar_lt_iff,
    digitChar_eq_iff, and_false, or_false, false_or, true_and]
  unfold ymKey
  generalize h1 : a.year / 1000 % 10 = a3
  generalize h2 : a.year / 100 % 10 = a2
  generalize h3 : a.year / 10 % 10 = a1
  generalize h4 : a.year % 10 = a0
  generalize h5 : a.month / 10 % 10 = am1
  generalize h6 : a.month % 10 = am0
  generalize h9 : b.year / 1000 % 10 = b3
  generalize h10 : b.year / 100 % 10 = b2
  generalize h11 : b.year / 10 % 10 = b1
  generalize h12 : b.year % 10 = b0
  generalize h13 : b.month / 10 % 10 = bm1
  generalize h14 : b.month % 10 = bm0
  have f1 : a.year = 1000 * a3 + 100 * a2 + 10 * a1 + a0 ∧ a3 ≤ 9 ∧ a2 ≤ 9 ∧ a1 ≤ 9 ∧
      a0 ≤ 9 := by omega
  have f2 : a.month = 10 * am1 + am0 ∧ am1 ≤ 9 ∧ am0 ≤ 9 := by omega
  have f4 : b.year = 1000 * b3 + 100 * b2 + 10 * b1 + b0 ∧ b3 ≤ 9 ∧ b2 ≤ 9 ∧ b1 ≤ 9 ∧
      b0 ≤ 9 := by omega
  have f5 : b.month = 10 * bm1 + bm0 ∧ bm1 ≤ 9 ∧ bm0 ≤ 9 := by omega
  clear h1 h2 h3 h4 h5 h6 h9 h10 h11 h12 h13 h14
  omega

theorem strLt_iso_iff {a b : Date} (ha : ValidDate a) (hb : ValidDate b) :
    strLt (isoDate a) (isoDate b) = true ↔ dateKey a < dateKey b := by
  have h : strLt (isoDate a) (isoDate b) = lexLt (isoChars a) (isoChars b) := rfl
  rw [h, lexLt_iff, isoChars_lex_iff ha hb]

theorem strLe_iso_iff {a b : Date} (ha : ValidDate a) (hb : ValidDate b) :
    strLe (isoDate a) (isoDate b) = true ↔ dateKey a ≤ dateKey b := by
  have h : strLe (isoDate a) (isoDate b) = true ↔ ¬lexLt (isoChars b) (isoChars a) = true := by
    simp [strLe, strLt, isoDate]
  rw [h, lexLt_iff, isoChars_lex_iff hb ha]
  omega

theorem strLe_ym_iff {a b : Date} (ha : ValidDate a) (hb : ValidDate b) :
    strLe (ymOf a) (ymOf b) = true ↔ ymKey a ≤ ymKey b := by
  obtain ⟨_, ham, _, _, hay⟩ := ha
  obtain ⟨_, hbm, _, _, hby⟩ := hb
  have h : strLe (ymOf a) (ymOf b) = true ↔ ¬lexLt (ymChars b) (ymChars a) = true := by
    simp [strLe, strLt, ymOf]
  rw [h, lexLt_iff, ymChars_lex_iff hby (by omega) hay (by omega)]
  omega

/-! ### Parsing lemmas for the month label translator -/

theorem parseYM_mk (a b c d e f g : Char) :
    parseYM ⟨[a, b, c, d, e, f, g]⟩ =
      (if e = '-' && isDig a && isDig b && isDig c && isDig d && isDig f && isDig g then
        let m := 10 * charDigit f + charDigit g
        if 1 ≤ m ∧ m ≤ 12 then
          some (1000 * charDigit a + 100 * charDigit b + 10 * charDigit c + charDigit d, m)
        else none
      else none) := rfl

theorem parseLabel_mk (c₁ c₂ c₃ dash d₁ d₂ : Char) :
    parseLabel ⟨[c₁, c₂, c₃, dash, d₁, d₂]⟩ =
      (if dash = '-' && isDig d₁ && isDig d₂ then
        match monthNum c₁ c₂ c₃ with
        | some m => some (pivotYear (10 * charDigit d₁ + charDigit d₂), m)
        | none => none
      else none) := rfl

theorem ymOf_data (d : Date) :
    ymOf d = ⟨[digitChar (d.year / 1000 % 10), digitChar (d.year / 100 % 10),
      digitChar (d.year / 10 % 10), digitChar (d.year % 10), '-',
      digitChar (d.month / 10 % 10), digitChar (d.month % 10)]⟩ := by
  simp [ymOf, ymChars, pad4chars, pad2chars]

/-- Parsing a generated `YYYY-MM` key recovers the date's year and month. -/
theorem parseYM_ymOf (d : Date) (h : ValidDate d) :
    parseYM (ymOf d) = some (d.year, d.month) := by
  obtain ⟨hm1, hm2, _, _, hy⟩ := h
  rw [ymOf_data, parseYM_mk]
  simp only [isDig_digitChar, Bool.and_true, Bool.and_self, if_pos rfl, charDigit_digitChar]
  rw [if_pos (by decide), if_pos (by omega)]
  simp only [Option.some.injEq, Prod.mk.injEq]
  constructor <;> omega

/-- The `%b-%y` label of a generated month key is the `to_display` of its components. -/
theorem labelOf_ymOf (d : Date) (h : ValidDate d) :
    labelOf (ymOf d) = to_display d.year d.month := by
  unfold labelOf
  rw [parseYM_ymOf d h]

theorem monthNum_bounds {c₁ c₂ c₃ : Char} {m : Nat} (h : monthNum c₁ c₂ c₃ = some m) :
    1 ≤ m ∧ m ≤ 12 := by
  unfold monthNum at h
  cases hf : monthTable.find? (fun t =>
      t.1 == c₁.toLower && t.2.1 == c₂.toLower && t.2.2.1 == c₃.toLower) with
  | none => rw [hf] at h; cases h
  | some t =>
    rw [hf] at h
    cases h
    have hmem := List.mem_of_find?_eq_some hf
    have hb : ∀ t ∈ monthTable, 1 ≤ t.2.2.2 ∧ t.2.2.2 ≤ 12 := by decide
    exact hb t hmem

theorem isDig_le {c : Char} (h : isDig c = true) : charDigit c ≤ 9 := by
  simp only [isDig, Bool.and_eq_true, decide_eq_true_eq] at h
  unfold charDigit
  omega

/-- Bounds delivered by a successful `%b-%y` parse: the month is in range and the
pivoted year lies in 1969-2068. -/
theorem parseLabel_bounds {s : String} {y m : Nat} (h : parseLabel s = some (y, m)) :
    1 ≤ m ∧ m ≤ 12 ∧ 1969 ≤ y ∧ y ≤ 2068 := by
  unfold parseLabel at h
  split at h
  case _ =>
    rename_i c₁ c₂ c₃ dash d₁ d₂ heq
    split at h
    case isTrue hc =>
      simp only [Bool.and_eq_true, decide_eq_true_eq] at hc
      obtain ⟨⟨_, hd₁⟩, hd₂⟩ := hc
      cases hmn : monthNum c₁ c₂ c₃ with
      | none => rw [hmn] at h; cases h
      | some mv =>
        rw [hmn] at h
        cases h
        have hb := monthNum_bounds hmn
        have h1 := isDig_le hd₁
        have h2 := isDig_le hd₂
        unfold pivotYear
        split <;> omega
    case isFalse => cases h
  case _ => cases h

/-- Exhaustive check: parsing `Mon-YY` text rendered from any month number and any
two-digit year recovers the month and the pivoted year. -/
theorem parseLabel_monthAbbr : ∀ m < 13, ∀ v < 100, 1 ≤ m →
    parseLabel ⟨monthAbbr m ++ '-' :: pad2chars v⟩ = some (pivotYear v, m) := by decide

/-- `%y` pivot inverts the truncation to two digits exactly on 1969-2068. -/
theorem pivotYear_mod (y : Nat) (h1 : 1969 ≤ y) (h2 : y ≤ 2068) :
    pivotYear (y % 100) = y := by
  unfold pivotYear
  split <;> omega

/-- Round trip of the label translator on the pivot window. -/
theorem parseLabel_to_display (y m : Nat) (hm1 : 1 ≤ m) (hm2 : m ≤ 12)
    (hy1 : 1969 ≤ y) (hy2 : y ≤ 2068) : parseLabel (to_display y m) = some (y, m) := by
  have h := parseLabel_monthAbbr m (by omega) (y % 100) (by omega) hm1
  unfold to_display
  rw [h, pivotYear_mod y hy1 hy2]

/-- A `pd.to_datetime`-convertible date satisfies the schema's date invariant. -/
theorem pdDate_valid (d : Date) (h : pdDate d = true) : ValidDate d := by
  simp only [pdDate, inStampBounds, Bool.and_eq_true, decide_eq_true_eq] at h
  obtain ⟨⟨⟨⟨h1, h2⟩, h3⟩, h4⟩, h5, h6⟩ := h
  have hdm : daysInMonth d.year d.month ≤ 31 := by
    unfold daysInMonth
    split_ifs <;> omega
  unfold dateKey at h5 h6
  exact ⟨h1, h2, h3, by omega, by omega⟩

/-! ### Claim theorems -/

/-- C5 (amended): the label round trip `to_month_key (to_display (year, month)) =
(year, month)` holds for every month 1-12 and every year inside the two-digit-year
pivot window 1969-2068 (outside it the `%y` truncation is not invertible). -/
theorem label_round_trip (y m : Nat) (hm : 1 ≤ m ∧ m ≤ 12) (hy : 1969 ≤ y ∧ y ≤ 2068) :
    parseLabel (to_display y m) = some (y, m) :=
  parseLabel_to_display y m hm.1 hm.2 hy.1 hy.2

theorem label_round_trip_witness :
    ((1 ≤ 1 ∧ 1 ≤ 12) ∧ (1969 ≤ 2024 ∧ 2024 ≤ 2068)) ∧
      parseLabel (to_display 2024 1) = some (2024, 1) :=
  ⟨⟨by decide, by decide⟩, label_round_trip 2024 1 (by decide) (by decide)⟩

/-- C5 counterexample: for the valid pair (2123, 5) — storable as a date, since
stamps range up to 2262 — the rendered label is `May-23` and parses back to
(2023, 5), not (2123, 5). -/
theorem label_round_trip_fails_2123 :
    to_display 2123 5 = "May-23" ∧ parseLabel (to_display 2123 5) = some (2023, 5) ∧
      parseLabel (to_display 2123 5) ≠ some (2123, 5) := by decide

/-- C3 (amended): the empty display label short-circuits to an empty result, but a
non-empty unparsable label makes `get_expenses_by_month` raise the `strptime`
`ValueError` instead of returning an empty result. -/
theorem month_filter_unparsable (s : Store) (month : String) :
    get_expenses_by_month s "" = .ok [] ∧
      (month ≠ "" → parseLabel month = none → get_expenses_by_month s month = .error ()) := by
  constructor
  · rfl
  · intro h1 h2
    unfold get_expenses_by_month
    rw [if_neg h1, h2]

theorem month_filter_unparsable_witness :
    (("garbage" : String) ≠ "" ∧ parseLabel "garbage" = none) ∧
      get_expenses_by_month emptyStore "" = .ok [] ∧
      get_expenses_by_month emptyStore "garbage" = .error () :=
  ⟨⟨by decide, by decide⟩, (month_filter_unparsable emptyStore "garbage").1,
    (month_filter_unparsable emptyStore "garbage").2 (by decide) (by decide)⟩

/-- C3 counterexample: on the unparsable non-empty label `"garbage"` the query does
not return an empty result set — the label parse fails and the error propagates. -/
theorem month_filter_unparsable_cex :
    parseLabel "garbage" = none ∧
      get_expenses_by_month emptyStore "garbage" = .error () := by decide

/-- C4 (amended): `add_category` normalizes by upper-casing only (no trimming):
called twice with inputs equal up to letter case on a store without that name, it
returns `true` then `false`, leaves the store unchanged on the second call, and
`get_categories` then contains exactly one entry equal to `upper n`.  Inputs that
differ in surrounding whitespace are distinct categories. -/
theorem add_category_upper_twice (s : Store) (n n₂ : String) (hcase : upper n = upper n₂)
    (habs : ∀ c ∈ s.categories, c.name ≠ upper n) :
    (add_category s n).1 = true ∧
      (add_category (add_category s n).2 n₂).1 = false ∧
      (add_category (add_category s n).2 n₂).2 = (add_category s n).2 ∧
      (get_categories (add_category (add_category s n).2 n₂).2).count (upper n) = 1 := by
  have hc1 : ¬(s.categories.any fun c => c.name == upper n) = true := by
    rw [List.any_eq_true]
    rintro ⟨c, hc, hb⟩
    exact habs c hc (by simpa using hb)
  have e1 : add_category s n =
      (true, ⟨s.categories ++ [⟨s.nextId, upper n⟩], s.expenses, s.users,
        s.nextId + 1⟩) := by
    unfold add_category
    rw [if_neg hc1]
  have hc2 : ((s.categories ++ [(⟨s.nextId, upper n⟩ : Category)]).any
      fun c => c.name == upper n₂) = true := by
    rw [List.any_eq_true]
    exact ⟨(⟨s.nextId, upper n⟩ : Category), by simp, by simp [hcase]⟩
  have e2 : add_category (add_category s n).2 n₂ = (false, (add_category s n).2) := by
    rw [e1]
    unfold add_category
    rw [if_pos hc2]
  refine ⟨by rw [e1], by rw [e2], by rw [e2], ?_⟩
  rw [e2, e1]
  unfold get_categories
  rw [List.Perm.count_eq (List.perm_insertionSort strLeRel _)]
  have hmap : ((⟨s.categories ++ [⟨s.nextId, upper n⟩], s.expenses, s.users,
      s.nextId + 1⟩ : Store).categories.map (fun c => c.name)) =
      s.categories.map (fun c => c.name) ++ [upper n] := by
    simp
  rw [hmap, List.count_append]
  have h0 : (s.categories.map (fun c => c.name)).count (upper n) = 0 := by
    rw [List.count_eq_zero]
    intro hmem
    obtain ⟨c, hc, hn⟩ := List.mem_map.mp hmem
    exact habs c hc hn
  rw [h0]
  simp

theorem add_category_upper_twice_witness :
    (upper "food" = upper "FoOd" ∧ (∀ c ∈ emptyStore.categories, c.name ≠ upper "food")) ∧
      (add_category emptyStore "food").1 = true ∧
      (add_category (add_category emptyStore "food").2 "FoOd").1 = false ∧
      (add_category (add_category emptyStore "food").2 "FoOd").2 =
        (add_category emptyStore "food").2 ∧
      (get_categories (add_category (add_category emptyStore "food").2 "FoOd").2).count
        (upper "food") = 1 :=
  ⟨⟨by decide, by decide⟩,
    add_category_upper_twice emptyStore "food" "FoOd" (by decide) (by decide)⟩

/-- C4 counterexample: `add_category` does not trim.  With `n = " a"` the two calls do
return `true` then `false`, but the stored entry is `" A"`, not
`n.strip().upper() = "A"` — the list contains no entry equal to `"A"`. -/
theorem add_category_no_trim :
    (add_category emptyStore " a").1 = true ∧
      (add_category (add_category emptyStore " a").2 " a").1 = false ∧
      get_categories (add_category (add_category emptyStore " a").2 " a").2 = [" A"] ∧
      (get_categories (add_category (add_category emptyStore " a").2 " a").2).count "A" =
        0 := by decide

/-- C6: when the category name does not resolve, `add_expense` fails and the expense
table is unchanged — the error is raised before any insert. -/
theorem add_expense_missing_category (s : Store) (amount : Int) (category : String)
    (d : Date) (receipt : Option String)
    (h : ∀ c ∈ s.categories, c.name ≠ upper category) :
    add_expense s amount category d receipt = (.error (), s) := by
  unfold add_expense
  have hfl : s.categories.filter (fun c => c.name == upper category) = [] := by
    rw [List.filter_eq_nil_iff]
    intro c hc
    simpa using h c hc
  rw [hfl]
  rfl

theorem add_expense_missing_category_witness :
    (∀ c ∈ exampleStore.categories, c.name ≠ upper "nonexistent") ∧
      add_expense exampleStore 5 "nonexistent" ⟨2024, 1, 1⟩ none =
        (.error (), exampleStore) :=
  ⟨by decide,
    add_expense_missing_category exampleStore 5 "nonexistent" ⟨2024, 1, 1⟩ none (by decide)⟩

theorem pyOr_falsy {a : Option String} (b : Option String) (h : falsyB a = true) :
    pyOr a b = b := by
  unfold falsyB at h
  unfold pyOr
  cases a with
  | none => rfl
  | some s => simp_all

/-- C7: when either credential resolves falsy through every source (argument,
secrets, environment), `get_connection` raises rather than returning a client. -/
theorem get_connection_missing (url us ue key ks ke : Option String)
    (h : (falsyB url = true ∧ falsyB us = true ∧ falsyB ue = true) ∨
      (falsyB key = true ∧ falsyB ks = true ∧ falsyB ke = true)) :
    get_connection url us ue key ks ke = .error () := by
  unfold get_connection
  rcases h with ⟨h1, h2, h3⟩ | ⟨h1, h2, h3⟩
  · rw [pyOr_falsy us h1, pyOr_falsy ue h2, h3]
    simp
  · rw [pyOr_falsy ks h1, pyOr_falsy ke h2, h3]
    simp

theorem get_connection_missing_witness :
    falsyB none = true ∧ get_connection none none none none none none = .error () :=
  ⟨rfl, get_connection_missing none none none none none none (Or.inl ⟨rfl, rfl, rfl⟩)⟩

/-- C8: `get_categories` returns exactly the stored category names (a permutation of
them), sorted ascending; the empty store yields the empty sequence. -/
theorem get_categories_sorted_complete :
    (∀ s : Store, (get_categories s).Sorted (· ≤ ·) ∧
      (get_categories s).Perm (s.categories.map (fun c => c.name))) ∧
    get_categories emptyStore = [] := by
  refine ⟨fun s => ⟨?_, List.perm_insertionSort strLeRel _⟩, rfl⟩
  have hs := List.sorted_insertionSort strLeRel (s.categories.map (fun c => c.name))
  have hg : get_categories s =
      List.insertionSort strLeRel (s.categories.map (fun c => c.name)) := rfl
  rw [hg]
  exact List.Pairwise.imp (fun h => strLe_iff.mp h) hs

/-- C9 (amended): when the receipt upload fails with a failure the code handles —
missing credentials, `AuthError`, or `ApiError` (including a failed shared-link
creation) — `upload_file` yields `None` and the expense-save flow still persists the
expense row, with a null receipt reference.  Upload failures of other classes
(`RateLimitError`, `InternalServerError`, connection errors) are not caught: they
abort the flow before `add_expense` and no row is persisted. -/
theorem receipt_failure_nonblocking (s : Store) (env : DropboxEnv) (amount : Int)
    (category : String) (d : Date) (hasReceipt : Bool) (c : Category)
    (hc : s.categories.filter (fun x => x.name == upper category) = [c]) :
    (upload_file env = .ok none →
      save_expense_flow s env amount category d hasReceipt =
        (.ok (), { s with expenses := s.expenses ++ [⟨amount, c.id, d, none⟩] })) ∧
    (upload_file env = .error () → hasReceipt = true →
      save_expense_flow s env amount category d hasReceipt = (.error (), s)) := by
  have hadd : add_expense s amount category d none =
      (.ok (), { s with expenses := s.expenses ++ [⟨amount, c.id, d, none⟩] }) := by
    unfold add_expense
    rw [hc]
    rfl
  constructor
  · intro hfail
    unfold save_expense_flow
    cases hasReceipt with
    | false => simpa using hadd
    | true =>
      rw [if_pos rfl, hfail]
      exact hadd
  · intro hfatal hrec
    unfold save_expense_flow
    rw [hrec, if_pos rfl, hfatal]

theorem receipt_failure_nonblocking_witness :
    (upload_file noCredsEnv = .ok none ∧ upload_file rateLimitEnv = .error () ∧
      exampleStore.categories.filter (fun x => x.name == upper "food") = [⟨1, "FOOD"⟩]) ∧
      save_expense_flow exampleStore noCredsEnv 42 "food" ⟨2024, 3, 1⟩ true =
        (.ok (), { exampleStore with
          expenses := exampleStore.expenses ++ [⟨42, 1, ⟨2024, 3, 1⟩, none⟩] }) ∧
      save_expense_flow exampleStore rateLimitEnv 42 "food" ⟨2024, 3, 1⟩ true =
        (.error (), exampleStore) :=
  ⟨⟨by decide, by decide, by decide⟩,
    (receipt_failure_nonblocking exampleStore noCredsEnv 42 "food" ⟨2024, 3, 1⟩ true
      ⟨1, "FOOD"⟩ (by decide)).1 (by decide),
    (receipt_failure_nonblocking exampleStore rateLimitEnv 42 "food" ⟨2024, 3, 1⟩ true
      ⟨1, "FOOD"⟩ (by decide)).2 (by decide) rfl⟩

/-- C9 counterexample: an upload failing with an uncaught error class
(`RateLimitError` here) is fatal — the flow aborts before `add_expense` and the
expense table is unchanged, refuting "the expense row is still persisted" for every
failing upload. -/
theorem receipt_failure_fatal :
    upload_file rateLimitEnv = .error () ∧
      save_expense_flow exampleStore rateLimitEnv 42 "food" ⟨2024, 3, 1⟩ true =
        (.error (), exampleStore) := by decide

/-- C10 (amended): `validate_user` is total (every failure is caught) and returns
`true` exactly when exactly one user row matches the username and the SHA-256 hex
digest of the password; no match, several matches, or any query failure give
`false`. -/
theorem validate_user_exactly_one (s : Store) (u p : String) :
    validate_user s u p = true ↔
      (s.users.filter (fun r => r.username == u && r.password == sha256hex p)).length =
        1 := by
  unfold validate_user
  rcases hfl : s.users.filter (fun r => r.username == u && r.password == sha256hex p)
    with _ | ⟨a, _ | ⟨b, t⟩⟩ <;> simp [hfl, single]

/-- C1: for every store of valid dates and every parsable `Mon-YY` label,
`get_expenses_by_month` succeeds, its rows are ordered ascending by date, they are
exactly (a permutation of) the expenses whose date lies in the half-open range
[first day of that month, first day of the following month) joined with their
category name, and that range holds exactly of the expenses whose calendar month is
the selected one — so `2024-01-31` belongs to `Jan-24` only and `2024-02-01` to
`Feb-24` only. -/
theorem month_filter_half_open (s : Store) (month : String) (y m : Nat)
    (hmo : month ≠ "") (hp : parseLabel month = some (y, m))
    (hv : ∀ e ∈ s.expenses, ValidDate e.date) :
    ∃ l, get_expenses_by_month s month = .ok l ∧
      l.Sorted (fun d₁ d₂ => d₁.date ≤ d₂.date) ∧
      l.Perm ((s.expenses.filter (fun e =>
        decide (dateKey ⟨y, m, 1⟩ ≤ dateKey e.date) &&
        decide (dateKey e.date <
          dateKey ⟨(firstOfNextMonth y m).1, (firstOfNextMonth y m).2, 1⟩))).map
        (detailOf s)) ∧
      (∀ e ∈ s.expenses,
        ((dateKey ⟨y, m, 1⟩ ≤ dateKey e.date ∧
            dateKey e.date <
              dateKey ⟨(firstOfNextMonth y m).1, (firstOfNextMonth y m).2, 1⟩) ↔
          (e.date.year = y ∧ e.date.month = m))) := by
  obtain ⟨hm1, hm2, hy1, hy2⟩ := parseLabel_bounds hp
  have hlb : ValidDate ⟨y, m, 1⟩ := by
    refine ⟨hm1, hm2, ?_, ?_, ?_⟩ <;> simp <;> omega
  have hub : ValidDate ⟨(firstOfNextMonth y m).1, (firstOfNextMonth y m).2, 1⟩ := by
    unfold firstOfNextMonth
    split <;> (refine ⟨?_, ?_, ?_, ?_, ?_⟩ <;> simp <;> omega)
  unfold get_expenses_by_month
  rw [if_neg hmo, hp]
  refine ⟨_, rfl, ?_, ?_, ?_⟩
  · have hs := List.sorted_insertionSort expLeRel (s.expenses.filter (fun e =>
      strLe (isoDate ⟨y, m, 1⟩) (isoDate e.date) &&
      strLt (isoDate e.date)
        (isoDate ⟨(firstOfNextMonth y m).1, (firstOfNextMonth y m).2, 1⟩)))
    show (List.Pairwise _ _)
    rw [List.pairwise_map]
    exact List.Pairwise.imp (fun h => strLe_iff.mp h) hs
  · refine (List.Perm.map (detailOf s) (List.perm_insertionSort expLeRel _)).trans ?_
    have hfeq : s.expenses.filter (fun e =>
        strLe (isoDate ⟨y, m, 1⟩) (isoDate e.date) &&
        strLt (isoDate e.date)
          (isoDate ⟨(firstOfNextMonth y m).1, (firstOfNextMonth y m).2, 1⟩)) =
        s.expenses.filter (fun e =>
          decide (dateKey ⟨y, m, 1⟩ ≤ dateKey e.date) &&
          decide (dateKey e.date <
            dateKey ⟨(firstOfNextMonth y m).1, (firstOfNextMonth y m).2, 1⟩)) := by
      apply List.filter_congr
      intro e he
      have hve := hv e he
      rw [Bool.eq_iff_iff]
      simp only [Bool.and_eq_true, decide_eq_true_eq]
      rw [strLe_iso_iff hlb hve, strLt_iso_iff hve hub]
    rw [hfeq]
  · intro e he
    obtain ⟨q1, q2, q3, q4, q5⟩ := hv e he
    unfold dateKey firstOfNextMonth
    by_cases h12 : m = 12
    · rw [if_pos h12]
      dsimp only
      omega
    · rw [if_neg h12]
      dsimp only
      omega

theorem month_filter_half_open_witness :
    ((("Jan-24" : String) ≠ "" ∧ parseLabel "Jan-24" = some (2024, 1)) ∧
      (∀ e ∈ boundaryStore.expenses, ValidDate e.date)) ∧
      (∃ l, get_expenses_by_month boundaryStore "Jan-24" = .ok l ∧
        l.Sorted (fun d₁ d₂ => d₁.date ≤ d₂.date) ∧
        l.Perm ((boundaryStore.expenses.filter (fun e =>
          decide (dateKey ⟨2024, 1, 1⟩ ≤ dateKey e.date) &&
          decide (dateKey e.date <
            dateKey ⟨(firstOfNextMonth 2024 1).1, (firstOfNextMonth 2024 1).2, 1⟩))).map
          (detailOf boundaryStore)) ∧
        (∀ e ∈ boundaryStore.expenses,
          ((dateKey ⟨2024, 1, 1⟩ ≤ dateKey e.date ∧
              dateKey e.date <
                dateKey ⟨(firstOfNextMonth 2024 1).1, (firstOfNextMonth 2024 1).2, 1⟩) ↔
            (e.date.year = 2024 ∧ e.date.month = 1)))) ∧
      get_expenses_by_month boundaryStore "Jan-24" = .ok [⟨"2024-01-31", some "FOOD", 3⟩] ∧
      get_expenses_by_month boundaryStore "Feb-24" = .ok [⟨"2024-02-01", some "FOOD", 7⟩] :=
  ⟨⟨⟨by decide, by decide⟩, by decide⟩,
    month_filter_half_open boundaryStore "Jan-24" 2024 1 (by decide) (by decide) (by decide),
    by decide, by decide⟩

/-- Chronological (year, month) order of two parsable `YYYY-MM` keys. -/
def chronLE (k₁ k₂ : String) : Prop :=
  ∀ y₁ m₁ y₂ m₂, parseYM k₁ = some (y₁, m₁) → parseYM k₂ = some (y₂, m₂) →
    y₁ < y₂ ∨ (y₁ = y₂ ∧ m₁ ≤ m₂)

/-- C2 (amended): on every store whose expense dates `pd.to_datetime` can convert
(real calendar dates inside the nanosecond-timestamp range), `get_month_totals`
succeeds and is the map over the distinct `YYYY-MM` keys of the expenses, sorted
ascending by that key — which is chronological (year, month) order, not
lexicographic order of the labels — pairing each key's `Mon-YY` label with the sum
of the amounts of that month's expenses; when some expense date is unconvertible the
conversion raises instead.  The spec's three-expense example yields
`[("Jan-24", 15), ("Feb-24", 7)]` and the empty ledger yields the empty sequence. -/
theorem month_totals_grouped_sorted :
    (∀ s : Store, (∀ e ∈ s.expenses, pdDate e.date = true) →
      ∃ keys : List String,
        get_month_totals s = .ok (keys.map (fun k =>
          (labelOf k,
            ((s.expenses.filter (fun e => ymOf e.date == k)).map
              (fun e => e.amount)).sum))) ∧
        keys.Sorted (· ≤ ·) ∧
        (∀ k, k ∈ keys ↔ ∃ e ∈ s.expenses, ymOf e.date = k) ∧
        keys.Pairwise chronLE ∧
        (∀ e ∈ s.expenses, labelOf (ymOf e.date) = to_display e.date.year e.date.month)) ∧
    (∀ s : Store, ¬(∀ e ∈ s.expenses, pdDate e.date = true) →
      get_month_totals s = .error ()) ∧
    get_month_totals exampleStore = .ok [("Jan-24", 15), ("Feb-24", 7)] ∧
    get_month_totals emptyStore = .ok [] := by
  refine ⟨?_, ?_, by decide, by decide⟩
  · intro s hpd
    have hv : ∀ e ∈ s.expenses, ValidDate e.date := fun e he => pdDate_valid _ (hpd e he)
    have hall : (s.expenses.all fun e => pdDate e.date) = true := List.all_eq_true.mpr hpd
    unfold get_month_totals
    rw [if_pos hall]
    refine ⟨List.insertionSort strLeRel
        ((s.expenses.map (fun (e : Expense) => ymOf e.date)).dedup), rfl, ?_, ?_, ?_, ?_⟩
    · exact List.Pairwise.imp (fun h => strLe_iff.mp h)
        (List.sorted_insertionSort strLeRel
          ((s.expenses.map (fun (e : Expense) => ymOf e.date)).dedup))
    · intro k
      simp [List.mem_insertionSort, List.mem_dedup, List.mem_map]
    · have hs := List.sorted_insertionSort strLeRel
        ((s.expenses.map (fun e => ymOf e.date)).dedup)
      refine List.Pairwise.imp_of_mem ?_ hs
      intro k₁ k₂ h₁ h₂ hle
      obtain ⟨e₁, he₁, hk₁⟩ :=
        List.mem_map.mp (List.mem_dedup.mp ((List.mem_insertionSort strLeRel).mp h₁))
      obtain ⟨e₂, he₂, hk₂⟩ :=
        List.mem_map.mp (List.mem_dedup.mp ((List.mem_insertionSort strLeRel).mp h₂))
      intro y₁ m₁ y₂ m₂ hp₁ hp₂
      have hv₁ := hv e₁ he₁
      have hv₂ := hv e₂ he₂
      rw [← hk₁, parseYM_ymOf e₁.date hv₁] at hp₁
      rw [← hk₂, parseYM_ymOf e₂.date hv₂] at hp₂
      simp only [Option.some.injEq, Prod.mk.injEq] at hp₁ hp₂
      obtain ⟨hy₁, hm₁⟩ := hp₁
      obtain ⟨hy₂, hm₂⟩ := hp₂
      unfold strLeRel at hle
      rw [← hk₁, ← hk₂] at hle
      have hkey := (strLe_ym_iff hv₁ hv₂).mp hle
      unfold ymKey at hkey
      obtain ⟨_, hb₁, _, _, _⟩ := hv₁
      obtain ⟨_, hb₂, _, _, _⟩ := hv₂
      omega
    · intro e he
      exact labelOf_ymOf e.date (hv e he)
  · intro s hnv
    have hall : (s.expenses.all fun e => pdDate e.date) = false := by
      cases hb : s.expenses.all fun e => pdDate e.date
      · rfl
      · exact absurd (List.all_eq_true.mp hb) hnv
    unfold get_month_totals
    rw [hall]
    rfl

theorem month_totals_grouped_sorted_witness :
    ((∀ e ∈ exampleStore.expenses, pdDate e.date = true) ∧
      ¬(∀ e ∈ outOfRangeStore.expenses, pdDate e.date = true)) ∧
      (∃ keys : List String,
        get_month_totals exampleStore = .ok (keys.map (fun k =>
          (labelOf k,
            ((exampleStore.expenses.filter (fun e => ymOf e.date == k)).map
              (fun e => e.amount)).sum))) ∧
        keys.Sorted (· ≤ ·) ∧
        (∀ k, k ∈ keys ↔ ∃ e ∈ exampleStore.expenses, ymOf e.date = k) ∧
        keys.Pairwise chronLE ∧
        (∀ e ∈ exampleStore.expenses,
          labelOf (ymOf e.date) = to_display e.date.year e.date.month)) ∧
      get_month_totals outOfRangeStore = .error () :=
  ⟨⟨by decide, by decide⟩, month_totals_grouped_sorted.1 exampleStore (by decide),
    month_totals_grouped_sorted.2.1 outOfRangeStore (by decide)⟩

/-- C2 counterexample: 2300-01-05 is a valid calendar date the schema admits, yet
`pd.to_datetime` cannot represent it, so `get_month_totals` raises
`OutOfBoundsDatetime` on that store instead of returning the claimed aggregates. -/
theorem month_totals_out_of_bounds :
    ValidDate (⟨2300, 1, 5⟩ : Date) ∧
      outOfRangeStore.expenses = [⟨10, 1, ⟨2300, 1, 5⟩, none⟩] ∧
      get_month_totals outOfRangeStore = .error () := by decide

set_option maxRecDepth 40000 in
/-- C10 counterexample: with two identical matching rows a user row does match, yet
`.single()` raises (caught as `False`) because the result set has two rows. -/
theorem validate_user_duplicate_rows :
    (∃ r ∈ dupUserStore.users, r.username = "u" ∧ r.password = sha256hex "p") ∧
      validate_user dupUserStore "u" "p" = false := by
  constructor
  · exact ⟨⟨"u", sha256hex "p"⟩, List.mem_cons_self _ _, rfl, rfl⟩
  · decide

end ExpenseTracker
